import Mathlib

/-!
# Password-recovery callables (`src/index.mjs`)

A shallow embedding of the two callable functions `requestPasswordReset` and
`adminResetPassword` together with their helpers `isEmail`, `callerIsAdmin` and
`rateLimit`.

* The document store is explicit state (`Firestore`), threaded through every call.
* The identity provider, the mail channel and the clock are external: their answers
  are supplied by an `Env`, and every call made to them (and every store access) is
  recorded, in order, in a trace of `Event`s.
* Timestamps are integers (milliseconds), as returned by `Date.now()`.
* The store holds documents by id or path; a throttle record, when present, carries its
  `hits` array. Whether the client's `db.collection(path)` yields a reference or throws is
  a parameter of the store (`acceptsCollection`); `collectionPathRule` is the rule of the
  Firestore client, which is not part of this repository.
* The request fields `appId` and `email` are untyped values (`JsVal`): the code tests
  their truthiness and coerces them to strings.
-/

namespace PasswordReset

/-! ## Regular expressions (for `isEmail`) -/

/-- Regular expressions over characters, with character classes given by predicates. -/
inductive RegExp where
  | never : RegExp
  | empty : RegExp
  | cls (p : Char → Bool) : RegExp
  | seq (a b : RegExp) : RegExp
  | alt (a b : RegExp) : RegExp
  | star (a : RegExp) : RegExp

namespace RegExp

/-- One or more repetitions: `r+`. -/
def plus (r : RegExp) : RegExp := seq r (star r)

/-- Does the expression accept the empty string? -/
def nullable : RegExp → Bool
  | never => false
  | empty => true
  | cls _ => false
  | seq a b => nullable a && nullable b
  | alt a b => nullable a || nullable b
  | star _ => true

/-- Brzozowski derivative with respect to one character. -/
def deriv : RegExp → Char → RegExp
  | never, _ => never
  | empty, _ => never
  | cls p, c => if p c then empty else never
  | seq a b, c => if nullable a then alt (seq (deriv a c) b) (deriv b c) else seq (deriv a c) b
  | alt a b, c => alt (deriv a c) (deriv b c)
  | star a, c => seq (deriv a c) (star a)

/-- Anchored match `/^r$/.test(s)`: the whole input must be consumed. -/
def test (r : RegExp) : List Char → Bool
  | [] => nullable r
  | c :: cs => test (deriv r c) cs

end RegExp

/-- The class `\s` of ECMAScript regular expressions (white space and line terminators). -/
def isJsSpace (c : Char) : Bool :=
  let n := c.toNat
  (9 ≤ n && n ≤ 13) || n == 0x20 || n == 0xA0 || n == 0x1680 || (0x2000 ≤ n && n ≤ 0x200A) ||
    n == 0x2028 || n == 0x2029 || n == 0x202F || n == 0x205F || n == 0x3000 || n == 0xFEFF

/-- The class `[^\s@]`. -/
def notSpaceAt (c : Char) : Bool := !isJsSpace c && c != '@'

/-- The pattern `^[^\s@]+@[^\s@]+\.[^\s@]+$` of `isEmail`. -/
def emailPattern : RegExp :=
  .seq (.plus (.cls notSpaceAt))
    (.seq (.cls (fun c => c == '@'))
      (.seq (.plus (.cls notSpaceAt))
        (.seq (.cls (fun c => c == '.')) (.plus (.cls notSpaceAt)))))

/-- Source `isEmail(s)`: minimal email validator. -/
def isEmail (s : String) : Bool := emailPattern.test s.toList

/-! ## Data model -/

/-- A value received from the client. `other` is a boolean, a number, an array or an
object, given by what the code can observe of it: its truthiness and its string coercion. -/
inductive JsVal where
  | undefined : JsVal
  | null : JsVal
  | str (s : String) : JsVal
  | other (truthy : Bool) (text : String) : JsVal
  deriving DecidableEq, Repr

namespace JsVal

/-- Truthiness, as tested by `!v` and `v || w`. -/
def truthy : JsVal → Bool
  | undefined => false
  | null => false
  | str s => s != ""
  | other t _ => t

/-- String coercion, as applied by `RegExp.prototype.test` and by template literals. -/
def toStr : JsVal → String
  | undefined => "undefined"
  | null => "null"
  | str s => s
  | other _ text => text

end JsVal

/-- An error raised by a call; `https` is `functions.https.HttpsError(code, message)`,
`invalidPath` is the error thrown by the store client for a path it refuses. -/
inductive Failure where
  | https (code message : String) : Failure
  | provider (code message : String) : Failure
  | mail (message : String) : Failure
  | invalidPath (path : String) : Failure
  deriving DecidableEq, Repr

/-- Error of an identity-provider call (`e.code`, `e.message`). -/
structure AuthError where
  code : String
  message : String
  deriving DecidableEq, Repr

/-- Request payload `data` of both callables; absent fields are `undefined` or `none`. -/
structure ResetRequest where
  appId : JsVal
  email : JsVal
  mode : Option String
  tempPassword : Option String
  continueUrl : Option String
  deriving DecidableEq, Repr

/-- Returned object: `ok`, and the optional fields `mode` and `link`. -/
structure ResetResult where
  ok : Bool
  mode : Option String
  link : Option String
  deriving DecidableEq, Repr

/-- Decoded token of the caller: `context.auth.token`. -/
structure Token where
  admin : Option Bool
  deriving DecidableEq, Repr

/-- Authentication data of the caller: `context.auth`. -/
structure Auth where
  uid : String
  token : Option Token
  deriving DecidableEq, Repr

/-- Callable context: `context.auth` and `context.rawRequest?.ip`. -/
structure CallableContext where
  auth : Option Auth
  ip : Option String
  deriving DecidableEq, Repr

/-- Role document `artifacts/<appId>/users/<uid>`. -/
structure RoleDoc where
  role : Option String
  deriving DecidableEq, Repr

/-- The document store: throttle records of collection `_rate/password_resets` by document
id (their `hits` field), the documents read through `db.doc(path)` by path, and the paths
for which `db.collection(path)` yields a reference instead of throwing. -/
structure Firestore where
  acceptsCollection : String → Bool
  rate : String → Option (List Int)
  docs : String → Option RoleDoc

/-- A message handed to `sgMail.send`. -/
structure Mail where
  toAddr : JsVal
  fromAddr : String
  subject : String
  text : String
  html : String
  deriving DecidableEq, Repr

/-- One externally visible operation, in the order performed. The Boolean of a provider or
mail operation tells whether it completed successfully. -/
inductive Event where
  | docGet (path : String) : Event
  | txGet (id : String) : Event
  | txSet (id : String) (hits : List Int) : Event
  | generatePasswordResetLink (email : JsVal) (url : String) (handleCodeInApp : Bool)
      (ok : Bool) : Event
  | getUserByEmail (email : JsVal) (ok : Bool) : Event
  | updateUser (uid password : String) (ok : Bool) : Event
  | revokeRefreshTokens (uid : String) (ok : Bool) : Event
  | send (m : Mail) (ok : Bool) : Event
  deriving DecidableEq, Repr

namespace Event

/-- Identity-provider operations. -/
def isProviderOp : Event → Bool
  | generatePasswordResetLink _ _ _ _ => true
  | getUserByEmail _ _ => true
  | updateUser _ _ _ => true
  | revokeRefreshTokens _ _ => true
  | _ => false

/-- Mail sends. -/
def isSend : Event → Bool
  | send _ _ => true
  | _ => false

/-- Store writes. -/
def isWrite : Event → Bool
  | txSet _ _ => true
  | _ => false

/-- Password updates and session revocations. -/
def isPasswordOp : Event → Bool
  | updateUser _ _ _ => true
  | revokeRefreshTokens _ _ => true
  | _ => false

/-- Accesses (read or write) to throttle records. -/
def isThrottleAccess : Event → Bool
  | txGet _ => true
  | txSet _ _ => true
  | _ => false

end Event

/-- Configuration, clock and external services seen by one invocation. -/
structure Env where
  FROM_EMAIL : String
  SENDGRID_API_KEY : String
  now : Int
  generatePasswordResetLink : JsVal → String → Bool → Except AuthError String
  getUserByEmail : JsVal → Except AuthError String
  updateUser : String → String → Except AuthError Unit
  revokeRefreshTokens : String → Except AuthError Unit
  send : Mail → Except String Unit

/-- What an invocation did: its result, the operations performed, and the final store. -/
structure Outcome (α : Type) where
  result : Except Failure α
  trace : List Event
  store : Firestore

/-! ## Base64 document ids -/

/-- The base64 alphabet. -/
def base64Alphabet : List Char :=
  "ABCDEFGHIJKLMNOPQRSTUVWXYZabcdefghijklmnopqrstuvwxyz0123456789+/".toList

/-- Base64 digit of a 6-bit value. -/
def base64Digit (n : Nat) : Char := base64Alphabet.getD (n % 64) 'A'

/-- Standard base64 with padding, on a list of bytes. -/
def base64 : List Nat → List Char
  | [] => []
  | [a] => [base64Digit (a / 4), base64Digit (a % 4 * 16), '=', '=']
  | [a, b] =>
      [base64Digit (a / 4), base64Digit (a % 4 * 16 + b / 16), base64Digit (b % 16 * 4), '=']
  | a :: b :: c :: rest =>
      base64Digit (a / 4) :: base64Digit (a % 4 * 16 + b / 16) ::
        base64Digit (b % 16 * 4 + c / 64) :: base64Digit (c % 64) :: base64 rest

/-- Source: `Buffer.from(key).toString("base64").slice(0, 500)`. -/
def docId (key : String) : String :=
  String.mk ((base64 (key.toUTF8.toList.map UInt8.toNat)).take 500)

/-! ## `rateLimit` -/

/-- The body of the transaction of `rateLimit`, on the snapshot read: the new `hits` to
store, or the error thrown. -/
def rateLimitTx (now windowSec maxCount : Int) (snap : Option (List Int)) :
    Except Failure (List Int) :=
  let hits := match snap with
    | some h => h
    | none => []
  let fresh := hits.filter (fun t => decide (now - t < windowSec * 1000))
  if (fresh.length : Int) ≥ maxCount then
    .error (.https "resource-exhausted" "Too many requests, try again later.")
  else
    .ok (fresh ++ [now])

/-- The collection path of the throttle records. -/
def ratePath : String := "_rate/password_resets"

/-- The segments of a path, separated by `/`. -/
def pathSegments : List Char → List (List Char)
  | [] => [[]]
  | c :: cs =>
    if c = '/' then [] :: pathSegments cs
    else
      match pathSegments cs with
      | [] => [[c]]
      | seg :: rest => (c :: seg) :: rest

/-- The rule of the Firestore client for `db.collection(path)`: a collection path has an odd
number of segments, none of them empty. -/
def collectionPathRule (path : String) : Bool :=
  let segments := pathSegments path.toList
  segments.length % 2 == 1 && segments.all (fun seg => !seg.isEmpty)

/-- Source `rateLimit(key, windowSec, maxCount)`, run as one atomic step at clock `now`:
the reference is built first, then the transaction runs. -/
def rateLimit (now : Int) (key : String) (windowSec maxCount : Int) (st : Firestore) :
    Outcome Unit :=
  if st.acceptsCollection ratePath = false then ⟨.error (.invalidPath ratePath), [], st⟩
  else
    let ref := docId key
    match rateLimitTx now windowSec maxCount (st.rate ref) with
    | .error e => ⟨.error e, [.txGet ref], st⟩
    | .ok fresh =>
        ⟨.ok (), [.txGet ref, .txSet ref fresh],
          ⟨st.acceptsCollection, fun id => if id = ref then some fresh else st.rate id,
            st.docs⟩⟩

/-! ## `requestPasswordReset` -/

/-- The redirect target: `continueUrl || "https://your-app.example.com/login"`. -/
def redirectUrl (continueUrl : Option String) : String :=
  match continueUrl with
  | some u => if u = "" then "https://your-app.example.com/login" else u
  | none => "https://your-app.example.com/login"

/-- The caller address: `context.rawRequest?.ip || "noip"`. -/
def callerIp (context : CallableContext) : String :=
  match context.ip with
  | some a => if a = "" then "noip" else a
  | none => "noip"

/-- The throttle key of a self-serve request. -/
def selfKey (email : String) (context : CallableContext) : String :=
  "self:" ++ email ++ ":" ++ callerIp context

/-- The message of the self-serve path. -/
def resetMail (env : Env) (email : JsVal) (link : String) : Mail :=
  ⟨email, env.FROM_EMAIL, "Reset your password",
    "Click the link to reset your password: " ++ link,
    "<p>Click the link to reset your password:</p><p><a href=\"" ++ link ++ "\">" ++ link ++
      "</a></p>"⟩

/-- The failure thrown on bad input. -/
def invalidInput : Failure :=
  .https "invalid-argument" "appId and a valid email are required."

/-- Source `requestPasswordReset(data, context)` after its input check, for the given
`email` and `continueUrl`. -/
def requestPasswordResetBody (env : Env) (st : Firestore) (email : JsVal)
    (continueUrl : Option String) (context : CallableContext) : Outcome ResetResult :=
  let r := rateLimit env.now (selfKey email.toStr context) 300 5 st
  match r.result with
  | .error e => ⟨.error e, r.trace, r.store⟩
  | .ok _ =>
    let url := redirectUrl continueUrl
    match env.generatePasswordResetLink email url true with
    | .error e =>
      let tr := r.trace ++ [.generatePasswordResetLink email url true false]
      if e.code = "auth/user-not-found" then ⟨.ok ⟨true, none, none⟩, tr, r.store⟩
      else ⟨.error (.https "internal" e.message), tr, r.store⟩
    | .ok link =>
      let tr := r.trace ++ [.generatePasswordResetLink email url true true]
      if env.SENDGRID_API_KEY = "" then ⟨.ok ⟨true, none, some link⟩, tr, r.store⟩
      else
        match env.send (resetMail env email link) with
        | .error m => ⟨.error (.mail m), tr ++ [.send (resetMail env email link) false], r.store⟩
        | .ok _ =>
          ⟨.ok ⟨true, none, none⟩, tr ++ [.send (resetMail env email link) true], r.store⟩

/-- Source `requestPasswordReset(data, context)`. -/
def requestPasswordReset (env : Env) (st : Firestore) (data : Option ResetRequest)
    (context : CallableContext) : Outcome ResetResult :=
  let d := data.getD ⟨.undefined, .undefined, none, none, none⟩
  if d.email.truthy = false ∨ isEmail d.email.toStr = false ∨ d.appId.truthy = false then
    ⟨.error invalidInput, [], st⟩
  else requestPasswordResetBody env st d.email d.continueUrl context

/-! ## `callerIsAdmin` -/

/-- The path of the role document of `uid` in tenant `appId`. -/
def roleDocPath (appId uid : String) : String := "artifacts/" ++ appId ++ "/users/" ++ uid

/-- The test `context.auth.token?.admin === true`. -/
def tokenAdmin (a : Auth) : Bool :=
  match a.token with
  | some t => t.admin == some true
  | none => false

/-- Source `callerIsAdmin(context, appId)`: the answer and the store reads made. -/
def callerIsAdmin (st : Firestore) (context : CallableContext) (appId : String) :
    Bool × List Event :=
  match context.auth with
  | none => (false, [])
  | some a =>
    if tokenAdmin a then (true, [])
    else
      let path := roleDocPath appId a.uid
      match st.docs path with
      | none => (false, [.docGet path])
      | some doc => (doc.role == some "admin", [.docGet path])

/-! ## `adminResetPassword` -/

/-- The `length` of a JavaScript string: its number of UTF-16 code units. -/
def jsLength (s : String) : Nat :=
  (s.toList.map (fun c => if c.toNat < 0x10000 then 1 else 2)).sum

/-- The message of the temporary-password path. -/
def tempMail (env : Env) (email : JsVal) (tempPassword : String) : Mail :=
  ⟨email, env.FROM_EMAIL, "Temporary password issued",
    "A temporary password was set by an administrator.\nTemporary password: " ++ tempPassword ++
      "\nPlease sign in and change it immediately.",
    "<p>A temporary password was set by an administrator.</p><p><b>Temporary password:</b> " ++
      tempPassword ++ "</p><p>Please sign in and change it immediately.</p>"⟩

/-- The message of the admin link path. -/
def adminLinkMail (env : Env) (email : JsVal) (link : String) : Mail :=
  ⟨email, env.FROM_EMAIL, "Reset your password",
    "Click to reset your password: " ++ link,
    "<p>Click to reset your password:</p><p><a href=\"" ++ link ++ "\">" ++ link ++ "</a></p>"⟩

/-- The failure thrown on a missing or short temporary password. -/
def invalidTempPassword : Failure :=
  .https "invalid-argument" "Provide a tempPassword (>= 8 chars)."

/-- The failure thrown when the caller is not an admin. -/
def permissionDenied : Failure :=
  .https "permission-denied" "Admin privileges required."

/-- Is `tempPassword` rejected by `!tempPassword || tempPassword.length < 8`? -/
def badTempPassword (tempPassword : Option String) : Bool :=
  match tempPassword with
  | none => true
  | some p => p == "" || decide (jsLength p < 8)

/-- The `"temp"` branch of `adminResetPassword`, after the user lookup returned `uid`;
`tr` is the trace so far. -/
def adminTempBranch (env : Env) (st : Firestore) (tr : List Event) (email : JsVal)
    (uid : String)
    (tempPassword : Option String) : Outcome ResetResult :=
  if badTempPassword tempPassword then ⟨.error invalidTempPassword, tr, st⟩
  else
    let pw := tempPassword.getD ""
    match env.updateUser uid pw with
    | .error e => ⟨.error (.provider e.code e.message), tr ++ [.updateUser uid pw false], st⟩
    | .ok _ =>
      match env.revokeRefreshTokens uid with
      | .error e =>
        ⟨.error (.provider e.code e.message),
          tr ++ [.updateUser uid pw true, .revokeRefreshTokens uid false], st⟩
      | .ok _ =>
        let tr2 := tr ++ [.updateUser uid pw true, .revokeRefreshTokens uid true]
        if env.SENDGRID_API_KEY = "" then ⟨.ok ⟨true, some "temp", none⟩, tr2, st⟩
        else
          match env.send (tempMail env email pw) with
          | .error m => ⟨.error (.mail m), tr2 ++ [.send (tempMail env email pw) false], st⟩
          | .ok _ =>
            ⟨.ok ⟨true, some "temp", none⟩, tr2 ++ [.send (tempMail env email pw) true], st⟩

/-- The default (link) branch of `adminResetPassword`; `tr` is the trace so far. -/
def adminLinkBranch (env : Env) (st : Firestore) (tr : List Event) (email : JsVal)
    (continueUrl : Option String) : Outcome ResetResult :=
  let url := redirectUrl continueUrl
  match env.generatePasswordResetLink email url true with
  | .error e =>
    ⟨.error (.provider e.code e.message),
      tr ++ [.generatePasswordResetLink email url true false], st⟩
  | .ok link =>
    let tr2 := tr ++ [.generatePasswordResetLink email url true true]
    if env.SENDGRID_API_KEY = "" then ⟨.ok ⟨true, some "link", some link⟩, tr2, st⟩
    else
      match env.send (adminLinkMail env email link) with
      | .error m => ⟨.error (.mail m), tr2 ++ [.send (adminLinkMail env email link) false], st⟩
      | .ok _ =>
        ⟨.ok ⟨true, some "link", none⟩, tr2 ++ [.send (adminLinkMail env email link) true], st⟩

/-- Source `adminResetPassword(data, context)`. -/
def adminResetPassword (env : Env) (st : Firestore) (data : Option ResetRequest)
    (context : CallableContext) : Outcome ResetResult :=
  let d := data.getD ⟨.undefined, .undefined, none, none, none⟩
  let mode := d.mode.getD "link"
  if d.appId.truthy = false ∨ d.email.truthy = false ∨ isEmail d.email.toStr = false then
    ⟨.error invalidInput, [], st⟩
  else
    let auth := callerIsAdmin st context d.appId.toStr
    if auth.1 = false then ⟨.error permissionDenied, auth.2, st⟩
    else
      match env.getUserByEmail d.email with
      | .error e =>
        ⟨.error (.provider e.code e.message), auth.2 ++ [.getUserByEmail d.email false], st⟩
      | .ok uid =>
        let tr := auth.2 ++ [.getUserByEmail d.email true]
        if mode = "temp" then adminTempBranch env st tr d.email uid d.tempPassword
        else adminLinkBranch env st tr d.email d.continueUrl

/-! ## Sequences of calls -/

/-- A sequence of `rateLimit(key, windowSec, maxCount)` calls, one atomic step each, at the
given clock values: the clock values of the admitted calls, in order. -/
def rateLimitCalls (key : String) (windowSec maxCount : Int) : Firestore → List Int → List Int
  | _, [] => []
  | st, now :: rest =>
    let o := rateLimit now key windowSec maxCount st
    match o.result with
    | .ok _ => now :: rateLimitCalls key windowSec maxCount o.store rest
    | .error _ => rateLimitCalls key windowSec maxCount o.store rest

/-! ## Concrete inputs -/

/-- A store without any document, whose client accepts every collection path. -/
def emptyStore : Firestore := ⟨fun _ => true, fun _ => none, fun _ => none⟩

/-- The provider error for an unknown account. -/
def userNotFound : AuthError := ⟨"auth/user-not-found", "There is no user record."⟩

/-- An environment with the given channel key and clock, whose provider answers `link` to
link requests and `user` to lookups; updates, revocations and sends succeed. -/
def envWith (apiKey : String) (now : Int) (link user : Except AuthError String) : Env :=
  ⟨"noreply@example.com", apiKey, now, fun _ _ _ => link, fun _ => user, fun _ _ => .ok (),
    fun _ => .ok (), fun _ => .ok ()⟩

/-- A store without any document, behind the Firestore client. -/
def clientStore : Firestore := ⟨collectionPathRule, fun _ => none, fun _ => none⟩

/-- An unauthenticated caller without address. -/
def anonymous : CallableContext := ⟨none, none⟩

/-- A caller whose token carries `admin: true`. -/
def adminCaller : CallableContext := ⟨some ⟨"admin-1", some ⟨some true⟩⟩, none⟩

/-! ## Specification-side definitions -/

/-- The language of a regular expression. -/
def RegExp.lang : RegExp → Language Char
  | .never => 0
  | .empty => 1
  | .cls p => {w | ∃ c, p c = true ∧ w = [c]}
  | .seq a b => RegExp.lang a * RegExp.lang b
  | .alt a b => RegExp.lang a + RegExp.lang b
  | .star a => KStar.kstar (RegExp.lang a)

/-- Following the claim's words: the string has the form `L@D.T` where `L`, `D` and `T` are
non-empty and contain no white space and no `@`. -/
def EmailForm (s : String) : Prop :=
  ∃ L D T : List Char, s.toList = L ++ '@' :: (D ++ '.' :: T) ∧ L ≠ [] ∧ D ≠ [] ∧ T ≠ [] ∧
    ∀ c ∈ L ++ D ++ T, isJsSpace c = false ∧ c ≠ '@'

/-- The requests refused as invalid: `appId` is falsy (missing, `null`, empty, `false`, `0`),
or `email` is falsy, or the string coercion of `email` does not have the form `L@D.T`;
absent `data` has neither field. -/
def InvalidRequest (data : Option ResetRequest) : Prop :=
  match data with
  | none => True
  | some d => d.appId.truthy = false ∨ d.email.truthy = false ∨ ¬ EmailForm d.email.toStr

/-- The timestamps a `rateLimit` call at clock `now` keeps from the stored record. -/
def freshHits (now windowSec : Int) (snap : Option (List Int)) : List Int :=
  (snap.getD []).filter (fun t => decide (now - t < windowSec * 1000))

/-- The operations of the `"temp"` branch after the user lookup: nothing, a failed update, a
successful update followed by a revocation, or these followed by one send. -/
def TempTail (tail : List Event) : Prop :=
  tail = [] ∨ (∃ uid pw, tail = [.updateUser uid pw false]) ∨
    (∃ uid pw b, tail = [.updateUser uid pw true, .revokeRefreshTokens uid b]) ∨
    (∃ uid pw m b, tail = [.updateUser uid pw true, .revokeRefreshTokens uid true, .send m b])

/-! ## Helper lemmas -/

theorem isEmail_ne_empty {email : String} (h : isEmail email = true) : email ≠ "" := by
  rintro rfl
  exact absurd h (by decide)

theorem requestPasswordReset_valid (env : Env) (st : Firestore) (appId email : String)
    (mode tempPassword continueUrl : Option String) (context : CallableContext)
    (hApp : appId ≠ "") (hEmail : isEmail email = true) :
    requestPasswordReset env st (some ⟨.str appId, .str email, mode, tempPassword, continueUrl⟩)
        context =
      requestPasswordResetBody env st (.str email) continueUrl context := by
  have hne := isEmail_ne_empty hEmail
  simp [requestPasswordReset, JsVal.truthy, JsVal.toStr, hApp, hEmail, hne]

theorem rateLimit_trace_access (now : Int) (key : String) (windowSec maxCount : Int)
    (st : Firestore) :
    ∀ ev ∈ (rateLimit now key windowSec maxCount st).trace,
      ev.isProviderOp = false ∧ ev.isSend = false ∧ ev.isThrottleAccess = true := by
  intro ev hev
  simp only [rateLimit] at hev
  split at hev
  · exact absurd hev (List.not_mem_nil ev)
  · split at hev
    · rw [List.mem_singleton.1 hev]; exact ⟨rfl, rfl, rfl⟩
    · rcases List.mem_cons.1 hev with h | h
      · rw [h]; exact ⟨rfl, rfl, rfl⟩
      · rw [List.mem_singleton.1 h]; exact ⟨rfl, rfl, rfl⟩

theorem rateLimit_eq (now : Int) (key : String) (windowSec maxCount : Int) (st : Firestore) :
    rateLimit now key windowSec maxCount st =
      if st.acceptsCollection ratePath = false then ⟨.error (.invalidPath ratePath), [], st⟩
      else if maxCount ≤ ((freshHits now windowSec (st.rate (docId key))).length : Int) then
        ⟨.error (.https "resource-exhausted" "Too many requests, try again later."),
          [.txGet (docId key)], st⟩
      else
        ⟨.ok (), [.txGet (docId key),
            .txSet (docId key) (freshHits now windowSec (st.rate (docId key)) ++ [now])],
          ⟨st.acceptsCollection, fun id => if id = docId key then
              some (freshHits now windowSec (st.rate (docId key)) ++ [now])
            else st.rate id, st.docs⟩⟩ := by
  have hsnap : (match st.rate (docId key) with
      | some h => h
      | none => []) = (st.rate (docId key)).getD [] := by
    cases st.rate (docId key) <;> rfl
  unfold rateLimit rateLimitTx freshHits
  simp only [hsnap, ge_iff_le]
  by_cases hc : st.acceptsCollection ratePath = false
  · rw [if_pos hc, if_pos hc]
  · rw [if_neg hc, if_neg hc]
    by_cases h : maxCount ≤ ((List.filter (fun t => decide (now - t < windowSec * 1000))
        ((st.rate (docId key)).getD [])).length : Int)
    · rw [if_pos h, if_pos h]
    · rw [if_neg h, if_neg h]

theorem freshHits_eq (now windowSec : Int) (snap : Option (List Int)) :
    freshHits now windowSec snap =
      (snap.getD []).filter (fun t => decide (t > now - windowSec * 1000)) := by
  unfold freshHits
  apply List.filter_congr
  intro t _
  apply decide_eq_decide.2
  constructor <;> intro h <;> omega

/-! ## Self-serve requests: existence hiding -/

/-- C1: a valid self-serve request admitted by the rate limiter, for which the identity
provider answers `auth/user-not-found`, returns exactly `ok = true` without `mode` or `link`,
and no mail is sent, whatever the channel configuration. -/
theorem requestPasswordReset_user_not_found (env : Env) (st : Firestore) (appId email : String)
    (mode tempPassword continueUrl : Option String) (context : CallableContext) (e : AuthError)
    (hApp : appId ≠ "") (hEmail : isEmail email = true)
    (hAdmit : (rateLimit env.now (selfKey email context) 300 5 st).result = .ok ())
    (hProv : env.generatePasswordResetLink (.str email) (redirectUrl continueUrl) true = .error e)
    (hCode : e.code = "auth/user-not-found") :
    (requestPasswordReset env st
        (some ⟨.str appId, .str email, mode, tempPassword, continueUrl⟩) context).result =
      .ok ⟨true, none, none⟩ ∧
    ∀ ev ∈ (requestPasswordReset env st
        (some ⟨.str appId, .str email, mode, tempPassword, continueUrl⟩) context).trace,
      ev.isSend = false := by
  rw [requestPasswordReset_valid env st appId email mode tempPassword continueUrl context hApp
    hEmail]
  simp only [requestPasswordResetBody, JsVal.toStr, hAdmit, hProv, hCode, if_true]
  refine ⟨trivial, ?_⟩
  intro ev hev
  rcases List.mem_append.1 hev with h | h
  · exact (rateLimit_trace_access _ _ _ _ _ ev h).2.1
  · rw [List.mem_singleton.1 h]; rfl

/-- An instance with a configured channel: unknown account, `ok = true`, nothing sent. -/
theorem requestPasswordReset_user_not_found_witness :
    (requestPasswordReset (envWith "SG.key" 1000 (.error userNotFound) (.error userNotFound))
        emptyStore (some ⟨.str "a1", .str "u@x.com", none, none, none⟩) anonymous).result =
      .ok ⟨true, none, none⟩ ∧
    ∀ ev ∈ (requestPasswordReset (envWith "SG.key" 1000 (.error userNotFound)
        (.error userNotFound)) emptyStore
        (some ⟨.str "a1", .str "u@x.com", none, none, none⟩) anonymous).trace,
      ev.isSend = false :=
  requestPasswordReset_user_not_found
    (envWith "SG.key" 1000 (.error userNotFound) (.error userNotFound)) emptyStore "a1" "u@x.com"
    none none none anonymous userNotFound (by decide) (by decide) rfl rfl rfl

/-- C2 fails on the code: with no channel configured (`SENDGRID_API_KEY` empty in both runs)
and a store client that accepts the throttle collection, the same request returns a `link`
when the provider issues one and none when the provider answers `auth/user-not-found`, so
link presence depends on account existence, against the comment of the catch branch. -/
theorem requestPasswordReset_link_depends_on_existence :
    (envWith "" 1000 (.ok "https://id.example/reset?oob=1") (.ok "u1")).SENDGRID_API_KEY =
      (envWith "" 1000 (.error userNotFound) (.error userNotFound)).SENDGRID_API_KEY ∧
    (requestPasswordReset (envWith "" 1000 (.ok "https://id.example/reset?oob=1") (.ok "u1"))
        emptyStore (some ⟨.str "a1", .str "u@x.com", none, none, none⟩) anonymous).result =
      .ok ⟨true, none, some "https://id.example/reset?oob=1"⟩ ∧
    (requestPasswordReset (envWith "" 1000 (.error userNotFound) (.error userNotFound))
        emptyStore (some ⟨.str "a1", .str "u@x.com", none, none, none⟩) anonymous).result =
      .ok ⟨true, none, none⟩ :=
  ⟨rfl, rfl, rfl⟩

/-! ## The throttle transaction -/

/-- C3 (as stated) fails: behind the Firestore client, `db.collection` refuses the
two-segment path `_rate/password_resets`, so with `hits = [0]`, `now = 300000`,
`windowSec = 300` and `maxCount = 1` the call fails before the record is read, with an error
that is not `resource-exhausted`, and nothing is stored. -/
theorem rateLimit_refused_by_client :
    collectionPathRule ratePath = false ∧
    (rateLimit 300000 "self:u@x.com:noip" 300 1
        ⟨collectionPathRule, fun _ => some [0], fun _ => none⟩).result =
      .error (.invalidPath "_rate/password_resets") ∧
    (rateLimit 300000 "self:u@x.com:noip" 300 1
        ⟨collectionPathRule, fun _ => some [0], fun _ => none⟩).trace = [] ∧
    (rateLimit 300000 "self:u@x.com:noip" 300 1
        ⟨collectionPathRule, fun _ => some [0], fun _ => none⟩).store.rate
        (docId "self:u@x.com:noip") = some [0] :=
  ⟨by decide, rfl, rfl, rfl⟩

/-- C3 (amended): for every `windowSec` and `maxCount` (in particular `windowSec > 0` and
`maxCount >= 1`), the transaction callback of `rateLimit` at clock `now` keeps, in their
order, exactly the read timestamps `t` with `t > now - windowSec * 1000` (none when the
record is absent); if at least `maxCount` are kept it throws `resource-exhausted`, otherwise
it sets the kept timestamps followed by `now`. Whenever `rateLimit` fails the store is
unchanged; whenever it succeeds the record of the key holds the kept timestamps followed by
`now` and every other record is unchanged. -/
theorem rateLimit_transaction (now : Int) (key : String) (windowSec maxCount : Int)
    (st : Firestore) (hits : List Int)
    (hHits : hits = (st.rate (docId key)).getD []) :
    (maxCount ≤ ((hits.filter (fun t => decide (t > now - windowSec * 1000))).length : Int) →
      rateLimitTx now windowSec maxCount (st.rate (docId key)) =
        .error (.https "resource-exhausted" "Too many requests, try again later.")) ∧
    (((hits.filter (fun t => decide (t > now - windowSec * 1000))).length : Int) < maxCount →
      rateLimitTx now windowSec maxCount (st.rate (docId key)) =
        .ok (hits.filter (fun t => decide (t > now - windowSec * 1000)) ++ [now])) ∧
    ((rateLimit now key windowSec maxCount st).result ≠ .ok () →
      (rateLimit now key windowSec maxCount st).store = st) ∧
    ((rateLimit now key windowSec maxCount st).result = .ok () →
      (rateLimit now key windowSec maxCount st).store.rate (docId key) =
          some (hits.filter (fun t => decide (t > now - windowSec * 1000)) ++ [now]) ∧
        (∀ id, id ≠ docId key →
          (rateLimit now key windowSec maxCount st).store.rate id = st.rate id) ∧
        (rateLimit now key windowSec maxCount st).store.docs = st.docs) := by
  have hfilter : (fun t : Int => decide (now - t < windowSec * 1000)) =
      (fun t : Int => decide (t > now - windowSec * 1000)) := by
    funext t
    apply decide_eq_decide.2
    constructor <;> intro h <;> omega
  have hsnap : (match st.rate (docId key) with
      | some h => h
      | none => []) = hits := by
    rw [hHits]; cases st.rate (docId key) <;> rfl
  have htx : rateLimitTx now windowSec maxCount (st.rate (docId key)) =
      if maxCount ≤ ((hits.filter (fun t => decide (t > now - windowSec * 1000))).length : Int)
      then .error (.https "resource-exhausted" "Too many requests, try again later.")
      else .ok (hits.filter (fun t => decide (t > now - windowSec * 1000)) ++ [now]) := by
    simp only [rateLimitTx, hsnap, hfilter, ge_iff_le]
  have hfresh : freshHits now windowSec (st.rate (docId key)) =
      hits.filter (fun t => decide (t > now - windowSec * 1000)) := by
    rw [freshHits_eq, hHits]
  refine ⟨?_, ?_, ?_, ?_⟩
  · intro hge
    rw [htx, if_pos hge]
  · intro hlt
    rw [htx, if_neg (not_le.2 hlt)]
  · intro hres
    rw [rateLimit_eq] at hres ⊢
    by_cases hc : st.acceptsCollection ratePath = false
    · rw [if_pos hc]
    · rw [if_neg hc] at hres ⊢
      by_cases hge : maxCount ≤ ((freshHits now windowSec (st.rate (docId key))).length : Int)
      · rw [if_pos hge]
      · rw [if_neg hge] at hres
        exact absurd rfl hres
  · intro hres
    rw [rateLimit_eq] at hres ⊢
    by_cases hc : st.acceptsCollection ratePath = false
    · rw [if_pos hc] at hres
      cases hres
    · rw [if_neg hc] at hres ⊢
      by_cases hge : maxCount ≤ ((freshHits now windowSec (st.rate (docId key))).length : Int)
      · rw [if_pos hge] at hres
        cases hres
      · rw [if_neg hge, ← hfresh]
        refine ⟨by simp, ?_, rfl⟩
        intro id hid
        simp [hid]

/-- An instance at the boundary: the read timestamp `0` is exactly `300 * 1000` ms old at
clock `300000`, it is not kept, and with `maxCount = 1` the callback sets `[300000]`; with a
client that accepts the collection the record of the key becomes `[300000]`. -/
theorem rateLimit_transaction_witness :
    rateLimitTx 300000 300 1 (some [0]) = .ok [300000] ∧
    (rateLimit 300000 "self:u@x.com:noip" 300 1
        ⟨fun _ => true, fun _ => some [0], fun _ => none⟩).store.rate
        (docId "self:u@x.com:noip") = some [300000] :=
  have h := rateLimit_transaction 300000 "self:u@x.com:noip" 300 1
    ⟨fun _ => true, fun _ => some [0], fun _ => none⟩ [0] rfl
  ⟨h.2.1 (by decide), (h.2.2.2 rfl).1⟩

/-! ## Authorization -/

/-- C6: `callerIsAdmin` answers `false` without any store read for an unauthenticated caller;
answers `true` without any store read when the token claim `admin` is `true`, whatever the
store holds; and otherwise reads exactly the role document at the tenant-scoped path of
`(appId, uid)` and answers `true` exactly when that document exists with role `"admin"`. -/
theorem callerIsAdmin_spec (st : Firestore) (context : CallableContext) (appId : String) :
    (context.auth = none → callerIsAdmin st context appId = (false, [])) ∧
    (∀ a t, context.auth = some a → a.token = some t → t.admin = some true →
      callerIsAdmin st context appId = (true, [])) ∧
    (∀ a, context.auth = some a → (∀ t, a.token = some t → t.admin ≠ some true) →
      (callerIsAdmin st context appId).2 = [.docGet (roleDocPath appId a.uid)] ∧
      ((callerIsAdmin st context appId).1 = true ↔
        ∃ doc, st.docs (roleDocPath appId a.uid) = some doc ∧ doc.role = some "admin")) := by
  refine ⟨?_, ?_, ?_⟩
  · intro h
    simp [callerIsAdmin, h]
  · intro a t h ht hadm
    simp [callerIsAdmin, h, tokenAdmin, ht, hadm]
  · intro a h hno
    have htok : tokenAdmin a = false := by
      unfold tokenAdmin
      cases htk : a.token with
      | none => rfl
      | some t => simpa using hno t htk
    cases hdoc : st.docs (roleDocPath appId a.uid) with
    | none => simp [callerIsAdmin, h, htok, hdoc]
    | some doc => simp [callerIsAdmin, h, htok, hdoc]

/-- Instances of the three cases: unauthenticated, admin claim, role document. -/
theorem callerIsAdmin_spec_witness :
    callerIsAdmin ⟨fun _ => true, fun _ => none, fun _ => some ⟨some "viewer"⟩⟩ anonymous "a1" = (false, []) ∧
    callerIsAdmin ⟨fun _ => true, fun _ => none, fun _ => some ⟨some "viewer"⟩⟩ adminCaller "a1" = (true, []) ∧
    (callerIsAdmin ⟨fun _ => true, fun _ => none, fun p => if p = "artifacts/a1/users/u7" then
        some ⟨some "admin"⟩ else none⟩ ⟨some ⟨"u7", some ⟨some false⟩⟩, none⟩ "a1").1 = true :=
  ⟨(callerIsAdmin_spec ⟨fun _ => true, fun _ => none, fun _ => some ⟨some "viewer"⟩⟩ anonymous "a1").1 rfl,
    (callerIsAdmin_spec ⟨fun _ => true, fun _ => none, fun _ => some ⟨some "viewer"⟩⟩ adminCaller "a1").2.1
      ⟨"admin-1", some ⟨some true⟩⟩ ⟨some true⟩ rfl rfl rfl,
    ((callerIsAdmin_spec ⟨fun _ => true, fun _ => none, fun p => if p = "artifacts/a1/users/u7" then
        some ⟨some "admin"⟩ else none⟩ ⟨some ⟨"u7", some ⟨some false⟩⟩, none⟩ "a1").2.2
      ⟨"u7", some ⟨some false⟩⟩ rfl (by intro t ht; cases ht; decide)).2.2
      ⟨⟨some "admin"⟩, by decide, rfl⟩⟩

theorem callerIsAdmin_trace (st : Firestore) (context : CallableContext) (appId : String) :
    ∀ ev ∈ (callerIsAdmin st context appId).2,
      ev.isProviderOp = false ∧ ev.isSend = false ∧ ev.isWrite = false := by
  intro ev hev
  unfold callerIsAdmin at hev
  split at hev
  · simp at hev
  · split at hev
    · simp at hev
    · have hmem : ev ∈ [Event.docGet (roleDocPath appId (‹Auth›).uid)] := by
        cases hdoc : st.docs (roleDocPath appId (‹Auth›).uid) <;> simpa [hdoc] using hev
      rw [List.mem_singleton.1 hmem]; exact ⟨rfl, rfl, rfl⟩

theorem adminResetPassword_valid (env : Env) (st : Firestore) (appId email : String)
    (mode tempPassword continueUrl : Option String) (context : CallableContext)
    (hApp : appId ≠ "") (hEmail : isEmail email = true) :
    adminResetPassword env st (some ⟨.str appId, .str email, mode, tempPassword, continueUrl⟩)
        context =
      if (callerIsAdmin st context appId).1 = false then
        ⟨.error permissionDenied, (callerIsAdmin st context appId).2, st⟩
      else
        match env.getUserByEmail (.str email) with
        | .error e =>
          ⟨.error (.provider e.code e.message),
            (callerIsAdmin st context appId).2 ++ [.getUserByEmail (.str email) false], st⟩
        | .ok uid =>
          if mode.getD "link" = "temp" then
            adminTempBranch env st
              ((callerIsAdmin st context appId).2 ++ [.getUserByEmail (.str email) true]) (.str email) uid
              tempPassword
          else
            adminLinkBranch env st
              ((callerIsAdmin st context appId).2 ++ [.getUserByEmail (.str email) true]) (.str email)
              continueUrl := by
  have hne := isEmail_ne_empty hEmail
  simp [adminResetPassword, JsVal.truthy, JsVal.toStr, hApp, hEmail, hne]

/-- C7: an `adminResetPassword` request with non-empty `appId` and valid email (any mode, any
`tempPassword`) from a caller for whom `callerIsAdmin` is false fails with
`permission-denied`; it performs no identity-provider operation, sends no mail, writes
nothing, and leaves the store unchanged. -/
theorem adminResetPassword_not_admin (env : Env) (st : Firestore) (appId email : String)
    (mode tempPassword continueUrl : Option String) (context : CallableContext)
    (hApp : appId ≠ "") (hEmail : isEmail email = true)
    (hNot : (callerIsAdmin st context appId).1 = false) :
    (adminResetPassword env st
        (some ⟨.str appId, .str email, mode, tempPassword, continueUrl⟩) context).result =
      .error (.https "permission-denied" "Admin privileges required.") ∧
    (∀ ev ∈ (adminResetPassword env st
        (some ⟨.str appId, .str email, mode, tempPassword, continueUrl⟩) context).trace,
      ev.isProviderOp = false ∧ ev.isSend = false ∧ ev.isWrite = false) ∧
    (adminResetPassword env st
        (some ⟨.str appId, .str email, mode, tempPassword, continueUrl⟩) context).store = st := by
  rw [adminResetPassword_valid env st appId email mode tempPassword continueUrl context hApp
    hEmail, if_pos hNot]
  exact ⟨rfl, callerIsAdmin_trace st context appId, rfl⟩

/-- An instance: an authenticated caller without claim or role document is denied. -/
theorem adminResetPassword_not_admin_witness :
    (adminResetPassword (envWith "SG.key" 1000 (.ok "https://id.example/reset?oob=1") (.ok "u1"))
        emptyStore (some ⟨.str "a1", .str "u@x.com", some "temp", some "Sup3rSecr3t", none⟩)
        ⟨some ⟨"u7", none⟩, none⟩).result =
      .error (.https "permission-denied" "Admin privileges required.") :=
  (adminResetPassword_not_admin
    (envWith "SG.key" 1000 (.ok "https://id.example/reset?oob=1") (.ok "u1")) emptyStore "a1"
    "u@x.com" (some "temp") (some "Sup3rSecr3t") none ⟨some ⟨"u7", none⟩, none⟩ (by decide)
    (by decide) rfl).1

/-! ## Temporary passwords -/

theorem badTempPassword_iff (tempPassword : Option String) :
    badTempPassword tempPassword = true ↔
      tempPassword = none ∨ ∃ p, tempPassword = some p ∧ jsLength p < 8 := by
  cases tempPassword with
  | none => simp [badTempPassword]
  | some p =>
    simp only [badTempPassword, Bool.or_eq_true, beq_iff_eq, decide_eq_true_eq, reduceCtorEq,
      Option.some.injEq, exists_eq_left', false_or]
    constructor
    · rintro (h | h)
      · subst h; decide
      · exact h
    · intro h; exact Or.inr h

/-- C8 (as stated) fails: for an admin caller, mode `"temp"` and the 7-character password
`1234567`, the user lookup `getUserByEmail` is invoked before the password is checked; and
when no account exists the call fails with the lookup error, not with `invalid-argument`. -/
theorem adminResetPassword_temp_lookup_first :
    (adminResetPassword (envWith "" 1000 (.ok "https://id.example/reset?oob=1") (.ok "u1"))
        emptyStore (some ⟨.str "a1", .str "u@x.com", some "temp", some "1234567", none⟩)
        adminCaller).trace = [.getUserByEmail (.str "u@x.com") true] ∧
    (adminResetPassword (envWith "" 1000 (.error userNotFound) (.error userNotFound))
        emptyStore (some ⟨.str "a1", .str "u@x.com", some "temp", some "1234567", none⟩)
        adminCaller).result =
      .error (.provider "auth/user-not-found" "There is no user record.") :=
  ⟨rfl, rfl⟩

/-- C8 (amended): for an authorized admin caller, non-empty `appId`, valid email, mode `"temp"`
and a `tempPassword` that is missing or shorter than 8 UTF-16 code units, the user lookup is
the only identity-provider operation invoked: if it succeeds the call fails with
`invalid-argument`, if it fails the call fails with the lookup error; in both cases no
password update, session revocation, link generation, mail send or store write happens. -/
theorem adminResetPassword_short_password (env : Env) (st : Firestore) (appId email : String)
    (tempPassword continueUrl : Option String) (context : CallableContext)
    (hApp : appId ≠ "") (hEmail : isEmail email = true)
    (hAdmin : (callerIsAdmin st context appId).1 = true)
    (hBad : tempPassword = none ∨ ∃ p, tempPassword = some p ∧ jsLength p < 8) :
    (∀ uid, env.getUserByEmail (.str email) = .ok uid →
      (adminResetPassword env st
          (some ⟨.str appId, .str email, some "temp", tempPassword, continueUrl⟩)
          context).result =
        .error (.https "invalid-argument" "Provide a tempPassword (>= 8 chars).")) ∧
    (∀ e, env.getUserByEmail (.str email) = .error e →
      (adminResetPassword env st
          (some ⟨.str appId, .str email, some "temp", tempPassword, continueUrl⟩)
          context).result = .error (.provider e.code e.message)) ∧
    (∃ b, (adminResetPassword env st
        (some ⟨.str appId, .str email, some "temp", tempPassword, continueUrl⟩) context).trace =
      (callerIsAdmin st context appId).2 ++ [.getUserByEmail (.str email) b]) ∧
    (∀ ev ∈ (adminResetPassword env st
        (some ⟨.str appId, .str email, some "temp", tempPassword, continueUrl⟩) context).trace,
      ev.isSend = false ∧ ev.isWrite = false ∧
        (ev.isProviderOp = true → ∃ b, ev = .getUserByEmail (.str email) b)) ∧
    (adminResetPassword env st
        (some ⟨.str appId, .str email, some "temp", tempPassword, continueUrl⟩)
        context).store = st := by
  have hbad := (badTempPassword_iff tempPassword).2 hBad
  have hnot : ¬ (callerIsAdmin st context appId).1 = false := by simp [hAdmin]
  rw [adminResetPassword_valid env st appId email (some "temp") tempPassword continueUrl context
    hApp hEmail, if_neg hnot]
  have hmem : ∀ b, ∀ ev ∈ (callerIsAdmin st context appId).2 ++ [Event.getUserByEmail (.str email) b],
      ev.isSend = false ∧ ev.isWrite = false ∧
        (ev.isProviderOp = true → ∃ b, ev = .getUserByEmail (.str email) b) := by
    intro b ev hev
    rcases List.mem_append.1 hev with h | h
    · have := callerIsAdmin_trace st context appId ev h
      exact ⟨this.2.1, this.2.2, fun hp => absurd hp (by simp [this.1])⟩
    · rw [List.mem_singleton.1 h]
      exact ⟨rfl, rfl, fun _ => ⟨b, rfl⟩⟩
  cases hu : env.getUserByEmail (.str email) with
  | error e =>
    refine ⟨?_, ?_, ⟨false, rfl⟩, hmem false, rfl⟩
    · intro uid h; cases h
    · intro e2 h; cases h; rfl
  | ok uid =>
    have hbr : adminTempBranch env st
        ((callerIsAdmin st context appId).2 ++ [.getUserByEmail (.str email) true]) (.str email) uid
        tempPassword =
        ⟨.error invalidTempPassword,
          (callerIsAdmin st context appId).2 ++ [.getUserByEmail (.str email) true], st⟩ := by
      simp only [adminTempBranch, hbad, if_true]
    simp only [Option.getD_some, if_true, hbr]
    refine ⟨?_, ?_, ⟨true, rfl⟩, hmem true, trivial⟩
    · intro uid2 h; rfl
    · intro e2 h; cases h

/-- An instance: a 7-character password for an existing account. -/
theorem adminResetPassword_short_password_witness :
    (adminResetPassword (envWith "SG.key" 1000 (.ok "https://id.example/reset?oob=1") (.ok "u1"))
        emptyStore (some ⟨.str "a1", .str "u@x.com", some "temp", some "1234567", none⟩)
        adminCaller).result =
      .error (.https "invalid-argument" "Provide a tempPassword (>= 8 chars).") :=
  (adminResetPassword_short_password
    (envWith "SG.key" 1000 (.ok "https://id.example/reset?oob=1") (.ok "u1")) emptyStore "a1"
    "u@x.com" (some "1234567") none adminCaller (by decide) (by decide) rfl
    (Or.inr ⟨"1234567", rfl, by decide⟩)).1 "u1" rfl

theorem adminTempBranch_trace (env : Env) (st : Firestore) (tr : List Event)
    (email : JsVal) (uid : String) (tempPassword : Option String) :
    ∃ tail, (adminTempBranch env st tr email uid tempPassword).trace = tr ++ tail ∧
      TempTail tail := by
  unfold adminTempBranch
  split
  · exact ⟨[], by simp, Or.inl rfl⟩
  · simp only []
    split
    · exact ⟨_, rfl, Or.inr (Or.inl ⟨_, _, rfl⟩)⟩
    · split
      · exact ⟨_, rfl, Or.inr (Or.inr (Or.inl ⟨_, _, _, rfl⟩))⟩
      · split
        · exact ⟨_, rfl, Or.inr (Or.inr (Or.inl ⟨_, _, _, rfl⟩))⟩
        · split
          · exact ⟨[.updateUser uid (tempPassword.getD "") true, .revokeRefreshTokens uid true,
              .send (tempMail env email (tempPassword.getD "")) false], by simp,
              Or.inr (Or.inr (Or.inr ⟨_, _, _, _, rfl⟩))⟩
          · exact ⟨[.updateUser uid (tempPassword.getD "") true, .revokeRefreshTokens uid true,
              .send (tempMail env email (tempPassword.getD "")) true], by simp,
              Or.inr (Or.inr (Or.inr ⟨_, _, _, _, rfl⟩))⟩

theorem adminResetPassword_temp_trace (env : Env) (st : Firestore) (data : Option ResetRequest)
    (context : CallableContext)
    (hMode : (data.getD ⟨.undefined, .undefined, none, none, none⟩).mode = some "temp") :
    ∃ pre tail, (adminResetPassword env st data context).trace = pre ++ tail ∧
      (∀ ev ∈ pre, ev.isPasswordOp = false) ∧ TempTail tail := by
  unfold adminResetPassword
  simp only [hMode, Option.getD_some, if_true]
  generalize (data.getD ⟨.undefined, .undefined, none, none, none⟩).appId.toStr = appId
  generalize (data.getD ⟨.undefined, .undefined, none, none, none⟩).email = email
  split
  · exact ⟨[], [], rfl, by simp, Or.inl rfl⟩
  · have hpre : ∀ ev ∈ (callerIsAdmin st context appId).2, ev.isPasswordOp = false := by
      intro ev hev
      have h := (callerIsAdmin_trace st context appId ev hev).1
      cases ev <;> simp_all [Event.isPasswordOp, Event.isProviderOp]
    split
    · exact ⟨_, [], (List.append_nil _).symm, hpre, Or.inl rfl⟩
    · split
      · refine ⟨_, [], (List.append_nil _).symm, ?_, Or.inl rfl⟩
        intro ev hev
        rcases List.mem_append.1 hev with h | h
        · exact hpre ev h
        · rw [List.mem_singleton.1 h]; rfl
      · rename_i uid _
        obtain ⟨tail, htr, htail⟩ := adminTempBranch_trace env st
          ((callerIsAdmin st context appId).2 ++ [.getUserByEmail email true]) email uid
          (data.getD ⟨.undefined, .undefined, none, none, none⟩).tempPassword
        refine ⟨_, tail, htr, ?_, htail⟩
        intro ev hev
        rcases List.mem_append.1 hev with h | h
        · exact hpre ev h
        · rw [List.mem_singleton.1 h]; rfl

theorem split_after_pre {pre tail p q : List Event} {x : Event}
    (hpre : ∀ ev ∈ pre, ev.isPasswordOp = false) (hx : x.isPasswordOp = true)
    (h : pre ++ tail = p ++ x :: q) : ∃ r, p = pre ++ r ∧ tail = r ++ x :: q := by
  rcases List.append_eq_append_iff.1 h with ⟨a, ha, hb⟩ | ⟨c, hc, hd⟩
  · exact ⟨a, ha, hb⟩
  · cases c with
    | nil => exact ⟨[], by simpa using hc.symm, by simpa using hd.symm⟩
    | cons y c =>
      have hy : y = x := by
        have := congrArg List.head? hd
        simpa using this.symm
      have hmem : x ∈ pre := by rw [hc, ← hy]; simp
      rw [hpre x hmem] at hx
      cases hx

/-- C9: in every `adminResetPassword` execution with mode `"temp"`, wherever a session
revocation for a user occurs in the trace, a successful password update for that same user
occurs before it; and wherever a successful password update occurs, the very next operation
is the session revocation for that user (so before any send and before the call returns). -/
theorem adminResetPassword_temp_revocation (env : Env) (st : Firestore)
    (data : Option ResetRequest) (context : CallableContext)
    (hMode : (data.getD ⟨.undefined, .undefined, none, none, none⟩).mode = some "temp") :
    (∀ p q uid b, (adminResetPassword env st data context).trace =
        p ++ .revokeRefreshTokens uid b :: q → ∃ pw, .updateUser uid pw true ∈ p) ∧
    (∀ p q uid pw, (adminResetPassword env st data context).trace =
        p ++ .updateUser uid pw true :: q → ∃ b q2, q = .revokeRefreshTokens uid b :: q2) := by
  obtain ⟨pre, tail, htr, hpre, htail⟩ := adminResetPassword_temp_trace env st data context hMode
  rw [htr]
  constructor
  · intro p q uid b h
    obtain ⟨r, hp, ht⟩ := split_after_pre hpre (by rfl) h
    subst hp
    rcases htail with h0 | ⟨u, w, h1⟩ | ⟨u, w, c, h2⟩ | ⟨u, w, m, c, h3⟩
    · rw [h0] at ht
      exact absurd ht (by simp)
    · rw [h1] at ht
      rcases r with _ | ⟨y, _ | ⟨z, r⟩⟩ <;> simp at ht
    · rw [h2] at ht
      rcases r with _ | ⟨y, _ | ⟨z, _ | ⟨z2, r⟩⟩⟩ <;> simp at ht
      obtain ⟨hy, hu, -⟩ := ht
      exact ⟨w, by simp [← hy, hu]⟩
    · rw [h3] at ht
      rcases r with _ | ⟨y, _ | ⟨z, _ | ⟨z2, _ | ⟨z3, r⟩⟩⟩⟩ <;> simp at ht
      obtain ⟨hy, hu, -⟩ := ht
      exact ⟨w, by simp [← hy, hu]⟩
  · intro p q uid pw h
    obtain ⟨r, hp, ht⟩ := split_after_pre hpre (by rfl) h
    subst hp
    rcases htail with h0 | ⟨u, w, h1⟩ | ⟨u, w, c, h2⟩ | ⟨u, w, m, c, h3⟩
    · rw [h0] at ht
      exact absurd ht (by simp)
    · rw [h1] at ht
      rcases r with _ | ⟨y, _ | ⟨z, r⟩⟩ <;> simp at ht
    · rw [h2] at ht
      rcases r with _ | ⟨y, _ | ⟨z, _ | ⟨z2, r⟩⟩⟩ <;> simp at ht
      obtain ⟨⟨hu, -⟩, hq⟩ := ht
      exact ⟨c, [], by rw [← hq, hu]⟩
    · rw [h3] at ht
      rcases r with _ | ⟨y, _ | ⟨z, _ | ⟨z2, _ | ⟨z3, r⟩⟩⟩⟩ <;> simp at ht
      obtain ⟨⟨hu, -⟩, hq⟩ := ht
      exact ⟨true, [.send m c], by rw [← hq, hu]⟩

/-- An instance: lookup, update, revocation, send, in this order. -/
theorem adminResetPassword_temp_revocation_witness :
    (adminResetPassword (envWith "SG.key" 1000 (.ok "https://id.example/reset?oob=1") (.ok "u1"))
        emptyStore (some ⟨.str "a1", .str "u@x.com", some "temp", some "Sup3rSecr3t", none⟩)
        adminCaller).trace =
      [.getUserByEmail (.str "u@x.com") true] ++ .updateUser "u1" "Sup3rSecr3t" true ::
        [.revokeRefreshTokens "u1" true,
          .send (tempMail (envWith "SG.key" 1000 (.ok "https://id.example/reset?oob=1")
            (.ok "u1")) (.str "u@x.com") "Sup3rSecr3t") true] ∧
    ∃ b q2, [Event.revokeRefreshTokens "u1" true,
        .send (tempMail (envWith "SG.key" 1000 (.ok "https://id.example/reset?oob=1")
          (.ok "u1")) (.str "u@x.com") "Sup3rSecr3t") true] = .revokeRefreshTokens "u1" b :: q2 :=
  ⟨rfl, (adminResetPassword_temp_revocation
    (envWith "SG.key" 1000 (.ok "https://id.example/reset?oob=1") (.ok "u1")) emptyStore
    (some ⟨.str "a1", .str "u@x.com", some "temp", some "Sup3rSecr3t", none⟩) adminCaller rfl).2
    [.getUserByEmail (.str "u@x.com") true] _ "u1" "Sup3rSecr3t" rfl⟩

/-! ## The rolling window -/

theorem rolling_window_invariant (key : String) (windowSec maxCount : Int) (T : Int) :
    ∀ (clocks : List Int) (st : Firestore) (admitted : List Int),
      clocks.Pairwise (· ≤ ·) →
      (∀ a ∈ admitted, ∀ n ∈ clocks, a ≤ n) →
      (∀ n ∈ clocks, freshHits n windowSec (st.rate (docId key)) =
        admitted.filter (fun t => decide (n - t < windowSec * 1000))) →
      (∀ U : Int, ((admitted.countP (fun t => decide (U - windowSec * 1000 < t ∧ t ≤ U)) : Nat)
        : Int) ≤ maxCount) →
      (((admitted ++ rateLimitCalls key windowSec maxCount st clocks).countP
        (fun t => decide (T - windowSec * 1000 < t ∧ t ≤ T)) : Nat) : Int) ≤ maxCount := by
  intro clocks
  induction clocks with
  | nil =>
    intro st admitted _ _ _ hcount
    simpa [rateLimitCalls] using hcount T
  | cons n rest ih =>
    intro st admitted hsorted hle hfresh hcount
    have hrest : rest.Pairwise (· ≤ ·) := (List.pairwise_cons.1 hsorted).2
    have hn : ∀ m ∈ rest, n ≤ m := (List.pairwise_cons.1 hsorted).1
    have hF := hfresh n (List.mem_cons_self _ _)
    have hkeep := ih st admitted hrest
      (fun a ha m hm => hle a ha m (List.mem_cons_of_mem _ hm))
      (fun m hm => hfresh m (List.mem_cons_of_mem _ hm)) hcount
    rw [rateLimitCalls, rateLimit_eq]
    by_cases hc : st.acceptsCollection ratePath = false
    · rw [if_pos hc]
      exact hkeep
    by_cases hfull : maxCount ≤ ((freshHits n windowSec (st.rate (docId key))).length : Int)
    · rw [if_neg hc, if_pos hfull]
      exact hkeep
    · rw [if_neg hc, if_neg hfull]
      have happ : admitted ++ n :: rateLimitCalls key windowSec maxCount
          ⟨st.acceptsCollection, fun id => if id = docId key then
              some (freshHits n windowSec (st.rate (docId key)) ++ [n])
            else st.rate id, st.docs⟩ rest =
          (admitted ++ [n]) ++ rateLimitCalls key windowSec maxCount
            ⟨st.acceptsCollection, fun id => if id = docId key then
                some (freshHits n windowSec (st.rate (docId key)) ++ [n])
              else st.rate id, st.docs⟩ rest := by simp
      show (((admitted ++ n :: rateLimitCalls key windowSec maxCount
          ⟨st.acceptsCollection, fun id => if id = docId key then
              some (freshHits n windowSec (st.rate (docId key)) ++ [n])
            else st.rate id, st.docs⟩ rest).countP
          (fun t => decide (T - windowSec * 1000 < t ∧ t ≤ T)) : Nat) : Int) ≤ maxCount
      rw [happ]
      apply ih _ (admitted ++ [n]) hrest
      · intro a ha m hm
        rcases List.mem_append.1 ha with h | h
        · exact hle a h m (List.mem_cons_of_mem _ hm)
        · rw [List.mem_singleton.1 h]; exact hn m hm
      · intro m hm
        have hnm := hn m hm
        simp only [if_true, freshHits, Option.getD_some, List.filter_append]
        have h1 : (freshHits n windowSec (st.rate (docId key))).filter
            (fun t => decide (m - t < windowSec * 1000)) =
            admitted.filter (fun t => decide (m - t < windowSec * 1000)) := by
          rw [hF, List.filter_filter]
          apply List.filter_congr
          intro t _
          by_cases h : m - t < windowSec * 1000
          · have h2 : n - t < windowSec * 1000 := by omega
            simp [h, h2]
          · simp [h]
        simp only [freshHits] at h1
        rw [h1]
      · intro U
        rw [List.countP_append]
        by_cases hU : n ≤ U
        · have hmono : admitted.countP (fun t => decide (U - windowSec * 1000 < t ∧ t ≤ U)) ≤
              admitted.countP (fun t => decide (n - t < windowSec * 1000)) := by
            apply List.countP_mono_left
            intro t _ ht
            simp only [decide_eq_true_eq] at ht ⊢
            omega
          have hlen : admitted.countP (fun t => decide (n - t < windowSec * 1000)) =
              (freshHits n windowSec (st.rate (docId key))).length := by
            rw [hF, List.countP_eq_length_filter]
          have hone : [n].countP (fun t => decide (U - windowSec * 1000 < t ∧ t ≤ U)) ≤ 1 := by
            simpa using List.countP_le_length (fun t => decide (U - windowSec * 1000 < t ∧ t ≤ U))
              (l := [n])
          omega
        · have hzero : [n].countP (fun t => decide (U - windowSec * 1000 < t ∧ t ≤ U)) = 0 := by
            simp [List.countP_cons, hU]
          rw [hzero]
          simpa using hcount U

/-- C4: for every key, every `windowSec` and every `maxCount >= 1` (in particular for
`windowSec > 0`), starting from an absent record and running any finite sequence of
`rateLimit` calls on that key, one atomic step each, at non-decreasing clock values: for
every instant `T`, at most `maxCount` of the admitted calls have their timestamp `t` in
`T - windowSec * 1000 < t <= T`. -/
theorem rateLimit_rolling_window (key : String) (windowSec maxCount : Int) (st : Firestore)
    (clocks : List Int) (T : Int) (hm : 1 ≤ maxCount)
    (hAbsent : st.rate (docId key) = none) (hMono : clocks.Pairwise (· ≤ ·)) :
    (((rateLimitCalls key windowSec maxCount st clocks).countP
      (fun t => decide (T - windowSec * 1000 < t ∧ t ≤ T)) : Nat) : Int) ≤ maxCount := by
  have h := rolling_window_invariant key windowSec maxCount T clocks st [] hMono
    (fun a ha => absurd ha (List.not_mem_nil a))
    (fun n _ => by simp [freshHits, hAbsent])
    (fun U => by simp; omega)
  simpa using h

/-- An instance with `maxCount = 2`: six calls, four admitted, two of them in the window. -/
theorem rateLimit_rolling_window_witness :
    rateLimitCalls "self:u@x.com:noip" 300 2 emptyStore [0, 1, 2, 300000, 300001, 300001] =
      [0, 1, 300000, 300001] ∧
    ((([0, 1, 300000, 300001] : List Int).countP
      (fun t => decide (300001 - 300 * 1000 < t ∧ t ≤ 300001)) : Nat) : Int) ≤ 2 := by
  have h := rateLimit_rolling_window "self:u@x.com:noip" 300 2 emptyStore
    [0, 1, 2, 300000, 300001, 300001] 300001 (by decide) rfl (by decide)
  have hrun : rateLimitCalls "self:u@x.com:noip" 300 2 emptyStore
      [0, 1, 2, 300000, 300001, 300001] = [0, 1, 300000, 300001] := by
    simp [rateLimitCalls, rateLimit_eq, freshHits, emptyStore]
  rw [hrun] at h
  exact ⟨hrun, h⟩

/-! ## Email syntax -/

theorem RegExp.nullable_iff (r : RegExp) : r.nullable = true ↔ [] ∈ r.lang := by
  induction r with
  | never => simp [RegExp.nullable, RegExp.lang, Language.not_mem_zero]
  | empty => simp [RegExp.nullable, RegExp.lang, Language.mem_one]
  | cls p =>
    simp only [RegExp.nullable, RegExp.lang, Bool.false_eq_true, false_iff]
    rintro ⟨c, -, h⟩
    cases h
  | seq a b iha ihb =>
    simp only [RegExp.nullable, RegExp.lang, Bool.and_eq_true, iha, ihb, Language.mem_mul]
    constructor
    · rintro ⟨h1, h2⟩
      exact ⟨[], h1, [], h2, rfl⟩
    · rintro ⟨u, hu, v, hv, huv⟩
      obtain ⟨rfl, rfl⟩ := List.append_eq_nil.1 huv
      exact ⟨hu, hv⟩
  | alt a b iha ihb =>
    simp only [RegExp.nullable, RegExp.lang, Bool.or_eq_true, iha, ihb, Language.mem_add]
  | star a _ =>
    simp only [RegExp.nullable, RegExp.lang, true_iff]
    exact Language.nil_mem_kstar _

theorem cons_mem_kstar_iff (l : Language Char) (c : Char) (w : List Char) :
    c :: w ∈ KStar.kstar l ↔ ∃ u, c :: u ∈ l ∧ ∃ v ∈ KStar.kstar l, u ++ v = w := by
  constructor
  · intro h
    obtain ⟨S, hS, hmem⟩ := Language.mem_kstar_iff_exists_nonempty.1 h
    cases S with
    | nil => simp at hS
    | cons y S =>
      have hy := hmem y (List.mem_cons_self _ _)
      cases y with
      | nil => exact absurd rfl hy.2
      | cons d u =>
        simp only [List.flatten_cons, List.cons_append, List.cons.injEq] at hS
        obtain ⟨rfl, rfl⟩ := hS
        refine ⟨u, hy.1, S.flatten, ?_, rfl⟩
        exact Language.join_mem_kstar (fun z hz => (hmem z (List.mem_cons_of_mem _ hz)).1)
  · rintro ⟨u, hu, v, hv, rfl⟩
    have h : (c :: u) ++ v ∈ l * KStar.kstar l := Language.append_mem_mul hu hv
    rw [← Language.one_add_self_mul_kstar_eq_kstar l]
    exact (Language.mem_add _ _ _).2 (Or.inr h)

theorem RegExp.deriv_iff (r : RegExp) (c : Char) :
    ∀ w : List Char, w ∈ (r.deriv c).lang ↔ c :: w ∈ r.lang := by
  induction r with
  | never => intro w; simp [RegExp.deriv, RegExp.lang, Language.not_mem_zero]
  | empty => intro w; simp [RegExp.deriv, RegExp.lang, Language.not_mem_zero, Language.mem_one]
  | cls p =>
    intro w
    by_cases hp : p c = true
    · simp only [RegExp.deriv, hp, if_true, RegExp.lang, Language.mem_one]
      constructor
      · rintro rfl
        exact ⟨c, hp, rfl⟩
      · rintro ⟨d, -, h⟩
        simpa using (List.cons.inj h).2
    · simp only [RegExp.deriv, hp, if_false, RegExp.lang, Bool.false_eq_true]
      constructor
      · intro h
        exact absurd h (Language.not_mem_zero _)
      · rintro ⟨d, hd, h⟩
        obtain ⟨rfl, -⟩ := List.cons.inj h
        exact absurd hd hp
  | seq a b iha ihb =>
    intro w
    have key : c :: w ∈ a.lang * b.lang ↔
        (∃ u, c :: u ∈ a.lang ∧ ∃ v ∈ b.lang, u ++ v = w) ∨ ([] ∈ a.lang ∧ c :: w ∈ b.lang) := by
      rw [Language.mem_mul]
      constructor
      · rintro ⟨x, hx, y, hy, hxy⟩
        cases x with
        | nil =>
          right
          simp only [List.nil_append] at hxy
          subst hxy
          exact ⟨hx, hy⟩
        | cons d u =>
          left
          simp only [List.cons_append, List.cons.injEq] at hxy
          obtain ⟨rfl, rfl⟩ := hxy
          exact ⟨u, hx, y, hy, rfl⟩
      · rintro (⟨u, hu, v, hv, rfl⟩ | ⟨h1, h2⟩)
        · exact ⟨c :: u, hu, v, hv, rfl⟩
        · exact ⟨[], h1, c :: w, h2, rfl⟩
    have hleft : w ∈ (a.deriv c).lang * b.lang ↔
        ∃ u, c :: u ∈ a.lang ∧ ∃ v ∈ b.lang, u ++ v = w := by
      rw [Language.mem_mul]
      constructor
      · rintro ⟨u, hu, v, hv, h⟩
        exact ⟨u, (iha u).1 hu, v, hv, h⟩
      · rintro ⟨u, hu, v, hv, h⟩
        exact ⟨u, (iha u).2 hu, v, hv, h⟩
    by_cases hn : a.nullable = true
    · have hnil := (RegExp.nullable_iff a).1 hn
      simp only [RegExp.deriv, hn, if_true, RegExp.lang, Language.mem_add, hleft, ihb w, key,
        hnil, true_and]
    · have hnil : ¬ [] ∈ a.lang := fun h => hn ((RegExp.nullable_iff a).2 h)
      simp only [RegExp.deriv, hn, if_false, RegExp.lang, hleft, key, hnil, false_and, or_false,
        Bool.false_eq_true]
  | alt a b iha ihb =>
    intro w
    simp only [RegExp.deriv, RegExp.lang, Language.mem_add, iha w, ihb w]
  | star a iha =>
    intro w
    simp only [RegExp.deriv, RegExp.lang]
    rw [cons_mem_kstar_iff, Language.mem_mul]
    constructor
    · rintro ⟨u, hu, v, hv, h⟩
      exact ⟨u, (iha u).1 hu, v, hv, h⟩
    · rintro ⟨u, hu, v, hv, h⟩
      exact ⟨u, (iha u).2 hu, v, hv, h⟩

theorem RegExp.test_iff (w : List Char) : ∀ r : RegExp, r.test w = true ↔ w ∈ r.lang := by
  induction w with
  | nil => intro r; simpa [RegExp.test] using RegExp.nullable_iff r
  | cons c w ih =>
    intro r
    rw [RegExp.test, ih (r.deriv c), RegExp.deriv_iff]

theorem mem_kstar_cls (p : Char → Bool) (w : List Char) :
    w ∈ KStar.kstar (RegExp.lang (.cls p)) ↔ ∀ c ∈ w, p c = true := by
  induction w with
  | nil => simp [Language.nil_mem_kstar]
  | cons d w ih =>
    rw [cons_mem_kstar_iff]
    constructor
    · rintro ⟨u, ⟨e, he, hu⟩, v, hv, rfl⟩
      obtain ⟨rfl, rfl⟩ := List.cons.inj hu
      intro c hc
      rcases List.mem_cons.1 hc with rfl | h
      · exact he
      · exact ih.1 hv c h
    · intro h
      exact ⟨[], ⟨d, h d (List.mem_cons_self _ _), rfl⟩, w,
        ih.2 (fun c hc => h c (List.mem_cons_of_mem _ hc)), rfl⟩

theorem mem_plus_cls (p : Char → Bool) (w : List Char) :
    w ∈ (RegExp.plus (.cls p)).lang ↔ w ≠ [] ∧ ∀ c ∈ w, p c = true := by
  cases w with
  | nil =>
    simp only [ne_eq, not_true_eq_false, false_and, iff_false]
    intro h
    have := (RegExp.nullable_iff (RegExp.plus (.cls p))).2 h
    simp [RegExp.plus, RegExp.nullable] at this
  | cons d w =>
    have h1 : d :: w ∈ (RegExp.plus (.cls p)).lang ↔ d :: w ∈ KStar.kstar (RegExp.lang (.cls p)) := by
      have h2 : d :: w ∈ KStar.kstar (RegExp.lang (.cls p)) ↔
          w ∈ ((RegExp.star (.cls p)).deriv d).lang :=
        (RegExp.deriv_iff (.star (.cls p)) d w).symm
      rw [← RegExp.deriv_iff, h2]
      have hn : (RegExp.cls p).nullable = false := rfl
      simp only [RegExp.plus, RegExp.deriv, hn, Bool.false_eq_true, if_false]
    rw [h1, mem_kstar_cls]
    simp

theorem mem_single (q : Char) (w : List Char) :
    w ∈ RegExp.lang (.cls (fun c => c == q)) ↔ w = [q] := by
  simp only [RegExp.lang, beq_iff_eq]
  constructor
  · rintro ⟨c, rfl, rfl⟩
    rfl
  · rintro rfl
    exact ⟨q, rfl, rfl⟩

theorem notSpaceAt_iff (c : Char) : notSpaceAt c = true ↔ isJsSpace c = false ∧ c ≠ '@' := by
  simp [notSpaceAt]

theorem isEmail_iff (s : String) : isEmail s = true ↔ EmailForm s := by
  unfold isEmail EmailForm
  rw [RegExp.test_iff]
  simp only [emailPattern, RegExp.lang.eq_4, Language.mem_mul, mem_plus_cls, mem_single]
  constructor
  · rintro ⟨L, ⟨hL, hLp⟩, x1, ⟨a, rfl, x2, ⟨D, ⟨hD, hDp⟩, x3, ⟨d, rfl, T, ⟨hT, hTp⟩, rfl⟩, rfl⟩, rfl⟩,
      h⟩
    refine ⟨L, D, T, by simpa using h.symm, hL, hD, hT, ?_⟩
    intro c hc
    rw [← notSpaceAt_iff]
    rcases List.mem_append.1 hc with h1 | h1
    · rcases List.mem_append.1 h1 with h2 | h2
      · exact hLp c h2
      · exact hDp c h2
    · exact hTp c h1
  · rintro ⟨L, D, T, h, hL, hD, hT, hall⟩
    have hp : ∀ c ∈ L ++ D ++ T, notSpaceAt c = true :=
      fun c hc => (notSpaceAt_iff c).2 (hall c hc)
    refine ⟨L, ⟨hL, fun c hc => hp c (by simp [hc])⟩, _,
      ⟨['@'], rfl, _, ⟨D, ⟨hD, fun c hc => hp c (by simp [hc])⟩, _,
        ⟨['.'], rfl, T, ⟨hT, fun c hc => hp c (by simp [hc])⟩, rfl⟩, rfl⟩, rfl⟩, ?_⟩
    simpa using h.symm

theorem body_not_invalid_argument (env : Env) (st : Firestore) (email : JsVal)
    (continueUrl : Option String) (context : CallableContext) (msg : String) :
    (requestPasswordResetBody env st email continueUrl context).result ≠
      .error (.https "invalid-argument" msg) := by
  unfold requestPasswordResetBody
  rw [rateLimit_eq]
  by_cases hc : st.acceptsCollection ratePath = false
  · rw [if_pos hc]
    simp
  rw [if_neg hc]
  by_cases hfull : (5 : Int) ≤
      ((freshHits env.now 300 (st.rate (docId (selfKey email.toStr context)))).length : Int)
  · rw [if_pos hfull]
    simp
  · rw [if_neg hfull]
    cases hp : env.generatePasswordResetLink email (redirectUrl continueUrl) true with
    | error e =>
      by_cases hcode : e.code = "auth/user-not-found"
      · simp [hp, hcode]
      · simp [hp, hcode]
    | ok link =>
      by_cases hk : env.SENDGRID_API_KEY = ""
      · simp [hp, hk]
      · cases hs : env.send (resetMail env email link) <;> simp [hp, hk, hs]

theorem requestPasswordReset_of_invalid (env : Env) (st : Firestore)
    (data : Option ResetRequest) (context : CallableContext) (h : InvalidRequest data) :
    requestPasswordReset env st data context = ⟨.error invalidInput, [], st⟩ := by
  cases data with
  | none => rfl
  | some d =>
    have hcond : d.email.truthy = false ∨ isEmail d.email.toStr = false ∨
        d.appId.truthy = false := by
      rcases h with h | h | h
      · exact Or.inr (Or.inr h)
      · exact Or.inl h
      · right; left
        cases hE : isEmail d.email.toStr
        · rfl
        · exact absurd ((isEmail_iff _).1 hE) h
    simp only [requestPasswordReset, Option.getD_some, hcond, if_true]

/-! ## Input validation and the first call -/

/-- C10 (as stated) fails: with `appId` the number `0` (neither missing nor an empty
string) and the well-formed email `u@x.com`, the call fails with `invalid-argument`. -/
theorem requestPasswordReset_rejects_zero_appId :
    JsVal.other false "0" ≠ .undefined ∧ JsVal.other false "0" ≠ .null ∧
    JsVal.other false "0" ≠ .str "" ∧ EmailForm "u@x.com" ∧
    (requestPasswordReset (envWith "" 1000 (.ok "https://id.example/reset?oob=1") (.ok "u1"))
        clientStore (some ⟨.other false "0", .str "u@x.com", none, none, none⟩)
        anonymous).result =
      .error (.https "invalid-argument" "appId and a valid email are required.") :=
  ⟨by decide, by decide, by decide, (isEmail_iff "u@x.com").1 (by decide), rfl⟩

/-- C10 (amended): for every request `data` (absent data included) and every caller,
`requestPasswordReset` fails with `invalid-argument` exactly when `appId` is falsy (missing,
`null`, empty, `false`, `0`), or `email` is falsy, or the string coercion of `email` does not
have the form `L@D.T` with `L`, `D`, `T` non-empty and free of white space and `@`; and when it
does, nothing was done: no throttle record read or written, no provider call, no mail, and
the store is unchanged. -/
theorem requestPasswordReset_invalid_argument (env : Env) (st : Firestore)
    (data : Option ResetRequest) (context : CallableContext) :
    ((∃ msg, (requestPasswordReset env st data context).result =
        .error (.https "invalid-argument" msg)) ↔ InvalidRequest data) ∧
    (InvalidRequest data →
      (requestPasswordReset env st data context).trace = [] ∧
        (requestPasswordReset env st data context).store = st) := by
  refine ⟨⟨?_, ?_⟩, ?_⟩
  · rintro ⟨msg, hres⟩
    by_contra hvalid
    cases data with
    | none => exact hvalid trivial
    | some d =>
      have ha : ¬ d.appId.truthy = false := fun h => hvalid (Or.inl h)
      have he : ¬ d.email.truthy = false := fun h => hvalid (Or.inr (Or.inl h))
      have hf : ¬ isEmail d.email.toStr = false := by
        intro h
        apply hvalid
        refine Or.inr (Or.inr (fun hform => ?_))
        rw [(isEmail_iff _).2 hform] at h
        cases h
      have hcond : ¬ (d.email.truthy = false ∨ isEmail d.email.toStr = false ∨
          d.appId.truthy = false) := by
        rintro (h | h | h)
        · exact he h
        · exact hf h
        · exact ha h
      simp only [requestPasswordReset, Option.getD_some, hcond, if_false] at hres
      exact body_not_invalid_argument env st d.email d.continueUrl context msg hres
  · intro h
    rw [requestPasswordReset_of_invalid env st data context h]
    exact ⟨_, rfl⟩
  · intro h
    rw [requestPasswordReset_of_invalid env st data context h]
    exact ⟨rfl, rfl⟩

/-- An instance: `user@example` is rejected with nothing done, `u@x.com` is not invalid. -/
theorem requestPasswordReset_invalid_argument_witness :
    (∃ msg, (requestPasswordReset (envWith "SG.key" 1000 (.ok "l1") (.ok "u1")) clientStore
        (some ⟨.str "a1", .str "user@example", none, none, none⟩) anonymous).result =
      .error (.https "invalid-argument" msg)) ∧
    (requestPasswordReset (envWith "SG.key" 1000 (.ok "l1") (.ok "u1")) clientStore
      (some ⟨.str "a1", .str "user@example", none, none, none⟩) anonymous).trace = [] ∧
    ¬ InvalidRequest (some ⟨.str "a1", .str "u@x.com", none, none, none⟩) := by
  have hbad : InvalidRequest (some ⟨.str "a1", .str "user@example", none, none, none⟩) :=
    ((requestPasswordReset_invalid_argument (envWith "SG.key" 1000 (.ok "l1") (.ok "u1"))
      clientStore (some ⟨.str "a1", .str "user@example", none, none, none⟩) anonymous).1).1
      ⟨_, rfl⟩
  have hgood : ¬ InvalidRequest (some ⟨.str "a1", .str "u@x.com", none, none, none⟩) := by
    intro h
    obtain ⟨msg, hm⟩ := ((requestPasswordReset_invalid_argument
      (envWith "SG.key" 1000 (.ok "l1") (.ok "u1")) clientStore
      (some ⟨.str "a1", .str "u@x.com", none, none, none⟩) anonymous).1).2 h
    have hr : (requestPasswordReset (envWith "SG.key" 1000 (.ok "l1") (.ok "u1")) clientStore
        (some ⟨.str "a1", .str "u@x.com", none, none, none⟩) anonymous).result =
        .error (.invalidPath "_rate/password_resets") := rfl
    rw [hr] at hm
    cases hm
  exact ⟨((requestPasswordReset_invalid_argument (envWith "SG.key" 1000 (.ok "l1") (.ok "u1"))
      clientStore (some ⟨.str "a1", .str "user@example", none, none, none⟩) anonymous).1).2 hbad,
    ((requestPasswordReset_invalid_argument (envWith "SG.key" 1000 (.ok "l1") (.ok "u1"))
      clientStore (some ⟨.str "a1", .str "user@example", none, none, none⟩) anonymous).2
      hbad).1, hgood⟩

/-- C5 fails on the code: behind the Firestore client, starting from no throttle record, the
first valid `requestPasswordReset` call for `u@x.com` without caller address is not admitted:
`db.collection` refuses the two-segment path `_rate/password_resets`, the call fails with
that error, and neither the throttle record nor the identity provider is reached. -/
theorem requestPasswordReset_first_call_refused :
    collectionPathRule ratePath = false ∧
    selfKey "u@x.com" anonymous = "self:u@x.com:noip" ∧
    clientStore.rate (docId (selfKey "u@x.com" anonymous)) = none ∧
    (requestPasswordReset (envWith "" 1000 (.ok "https://id.example/reset?oob=1") (.ok "u1"))
        clientStore (some ⟨.str "a1", .str "u@x.com", none, none, none⟩) anonymous).result =
      .error (.invalidPath "_rate/password_resets") ∧
    (requestPasswordReset (envWith "" 1000 (.ok "https://id.example/reset?oob=1") (.ok "u1"))
        clientStore (some ⟨.str "a1", .str "u@x.com", none, none, none⟩) anonymous).trace = [] :=
  ⟨by decide, by decide, rfl, rfl, rfl⟩

end PasswordReset
